import Mathlib

/-!
Verification of the weighted-withdrawal-time core of the Lido live
accounting oracle scripts (`src/scripts/calculate_withdrawal_times.py`).

The Python core is shallowly embedded here:

* `fetch_withdrawal_time` models the function of the same name: the HTTP
  transport is an external collaborator, so its outcome (request error,
  parsing error, or a parsed response body) is a parameter; the embedded
  function performs exactly the post-transport computation of the source
  (reading `requestInfo.finalizationIn`, converting milliseconds to days,
  and shaping the `(value, error)` pair).
* `calcTrace` models the loop of `calculate_weighted_durations`.  Besides
  the emitted result rows it records, per iteration, the argument passed to
  `fetch_withdrawal_time` (the source passes `int(amount)`), the
  numerator/denominator pair of the division `weighted_sum /
  cumulative_amount` whenever that division is executed, and the value of
  `cumulative_amount` at the end of the iteration.  These traces are the
  observable events of the loop body; `calculate_weighted_durations` is the
  row projection.
* `logspace10` / `sampleAmounts` model the `np.logspace(np.log10 mn,
  np.log10 mx, num)` call in `main` over the real numbers, and `mainTrace`
  models `main`'s pipeline from configuration to the accumulator run.
  `main` performs no validation of `min_amount`, `max_amount` or
  `num_points` and defines no error for bad ranges.

Numeric values are modelled by a linear ordered field (instantiated at `ℚ`
for executable claims about the fold and at `ℝ` for the logarithmic
sampler); Python's `int(x)` truncation toward zero is `pyInt`.
-/

namespace Lido

variable {α : Type} [LinearOrderedField α] [FloorRing α]

/-- Python's `int(x)` on a float: truncation toward zero. -/
def pyInt (x : α) : ℤ :=
  if 0 ≤ x then ⌊x⌋ else ⌈x⌉

/-- The parsed JSON body used by `fetch_withdrawal_time`: the source reads
`response_data['requestInfo'].get('finalizationIn', None)`, so all that
matters is the optional `finalizationIn` field (in milliseconds); `none`
covers both a JSON `null` and a missing key. -/
structure RequestInfo (α : Type) where
  finalizationIn : Option α
deriving DecidableEq

/-- A parsed response body: a `requestInfo` object. -/
structure ApiResponse (α : Type) where
  requestInfo : RequestInfo α
deriving DecidableEq

/-- Outcome of the HTTP transport inside `fetch_withdrawal_time`, which is
an external collaborator: the request raised (caught as
`requests.exceptions.RequestException`), parsing raised (caught as
`ValueError`/`KeyError`), or a body was parsed. -/
inductive FetchOutcome (α : Type) where
  | requestError (msg : String)
  | parsingError (msg : String)
  | parsed (response_data : ApiResponse α)

/-- Embedding of `fetch_withdrawal_time` (source lines 37-56): on a parsed
response, read the optional `finalizationIn` milliseconds, convert to days
by dividing by `1000 * 60 * 60 * 24`, and return `(days-or-none, no
error)`; on a transport or parsing exception return `(none, error text)`. -/
def fetch_withdrawal_time (outcome : FetchOutcome α) : Option α × Option String :=
  match outcome with
  | FetchOutcome.requestError e => (none, some ("Request error: " ++ e))
  | FetchOutcome.parsingError e => (none, some ("Data parsing error: " ++ e))
  | FetchOutcome.parsed response_data =>
      (response_data.requestInfo.finalizationIn.map (fun ms => ms / (1000 * 60 * 60 * 24)),
       none)

/-- One output row of `calculate_weighted_durations`: the tuple
`(timestamp, int(amount), finalization_in_days, weighted_duration)` of
source line 81.  The amount field is the Python `int(amount)`, hence `ℤ`. -/
structure Row (α : Type) where
  timestamp : ℕ
  amount : ℤ
  finalization_days : Option α
  weighted_duration : Option α
deriving DecidableEq

/-- The observable events of one run of the `calculate_weighted_durations`
loop: the emitted rows, the arguments of the oracle calls (`int(amount)`
at source line 69), the `(weighted_sum, cumulative_amount)` pairs of each
executed division (source line 78), and the value of `cumulative_amount`
at the end of each iteration (source line 73). -/
structure RunTrace (α : Type) where
  rows : List (Row α)
  calls : List ℤ
  divs : List (α × α)
  cums : List α
deriving DecidableEq

/-- Embedding of the loop of `calculate_weighted_durations` (source lines
64-83), instrumented with the event traces of `RunTrace`.  The oracle is
the already-fetched duration per integer amount (the first component of
`fetch_withdrawal_time`'s result).  Per iteration: fetch with
`int(amount)`; `incremental_amount := amount - cumulative_amount`;
`cumulative_amount += incremental_amount`; if the duration is present,
`weighted_sum += incremental_amount * finalization_in_days` and
`weighted_duration := weighted_sum / cumulative_amount`, else
`weighted_duration := None`; append
`(timestamp, int(amount), finalization_in_days, weighted_duration)`. -/
def calcTrace (oracle : ℤ → Option α) (timestamp : ℕ) :
    α → α → List α → RunTrace α
  | _, _, [] => ⟨[], [], [], []⟩
  | cumulative_amount, weighted_sum, amount :: rest =>
    let q : ℤ := pyInt amount
    let finalization_in_days := oracle q
    let incremental_amount := amount - cumulative_amount
    let cum' := cumulative_amount + incremental_amount
    match finalization_in_days with
    | some d =>
        let ws' := weighted_sum + incremental_amount * d
        let weighted_duration := ws' / cum'
        let t := calcTrace oracle timestamp cum' ws' rest
        ⟨⟨timestamp, q, some d, some weighted_duration⟩ :: t.rows,
         q :: t.calls, (ws', cum') :: t.divs, cum' :: t.cums⟩
    | none =>
        let t := calcTrace oracle timestamp cum' weighted_sum rest
        ⟨⟨timestamp, q, none, none⟩ :: t.rows,
         q :: t.calls, t.divs, cum' :: t.cums⟩

/-- Embedding of `calculate_weighted_durations` proper: the rows returned
to `main`, starting from `cumulative_amount = 0`, `weighted_sum = 0`. -/
def calculate_weighted_durations (oracle : ℤ → Option α) (timestamp : ℕ)
    (amounts : List α) : List (Row α) :=
  (calcTrace oracle timestamp 0 0 amounts).rows

/-- Default row used with `List.getD`. -/
def row0 : Row α := ⟨0, 0, none, none⟩

/-- Contribution of one observation to the weighted sum: `inc * d` when
the duration `d` is defined, `0` when it is absent. -/
def durContrib (o : Option α) (inc : α) : α :=
  match o with
  | some d => inc * d
  | none => 0

/-- Spec-side weighted sum over `j ≤ i`, generalized by the amount `prev`
preceding the list (the spec takes `prev = 0` for the whole input): each
sample contributes `incremental_amount_j * finalization_days_j` when its
duration is defined and `0` when it is absent, with `incremental_amount_j
= amount_j - amount_(j-1)`. -/
def specWSumAux (oracle : ℤ → Option α) (prev : α) (amounts : List α) (i : ℕ) : α :=
  ∑ j ∈ Finset.range (i + 1),
    durContrib (oracle (pyInt (amounts.getD j 0)))
      (amounts.getD j 0 - (if j = 0 then prev else amounts.getD (j - 1) 0))

/-- Spec-side weighted sum of §3's invariant: `weighted_sum_i = Σ_(j≤i)
incremental_amount_j * finalization_days_j` over samples with a defined
duration, `amount_0`'s predecessor being `0`. -/
def specWeightedSum (oracle : ℤ → Option α) (amounts : List α) (i : ℕ) : α :=
  specWSumAux oracle 0 amounts i

/-- Spec-side incremental amount: `amount_j - amount_(j-1)`, with
`amount_0`'s predecessor `0`. -/
def specIncrement (amounts : List α) (j : ℕ) : α :=
  amounts.getD j 0 - (if j = 0 then 0 else amounts.getD (j - 1) 0)

/-- Spec-side cumulative amount: the sum of all incremental amounts up to
and including sample `i` (every sample's full increment counts, whether or
not its duration is defined). -/
def specCumulative (amounts : List α) (i : ℕ) : α :=
  ∑ j ∈ Finset.range (i + 1), specIncrement amounts j

/-- Model of `np.logspace(lo, hi, num, base=10)` over the reals:
`10 ^ (lo + i * ((hi - lo) / (num - 1)))` for `i < num` (for `num = 1`,
numpy's `linspace` returns `[lo]`, matched here by Lean's `x / 0 = 0`). -/
noncomputable def logspace10 (lo hi : ℝ) (num : ℕ) : List ℝ :=
  (List.range num).map fun i : ℕ =>
    (10 : ℝ) ^ (lo + (i : ℝ) * ((hi - lo) / ((num - 1 : ℕ) : ℝ)))

/-- The amount grid of `main` (source lines 112-117):
`np.logspace(np.log10 min_amount, np.log10 max_amount, num_points)`.
`main` performs no range validation before this call. -/
noncomputable def sampleAmounts (min_amount max_amount : ℝ) (num_points : ℕ) : List ℝ :=
  logspace10 (Real.logb 10 min_amount) (Real.logb 10 max_amount) num_points

/-- Model of `main`'s pipeline (source lines 101-127): build the sample
grid, then run `calculate_weighted_durations` on it.  No error of any kind
is raised between argument parsing and the accumulator run. -/
noncomputable def mainTrace (oracle : ℤ → Option ℝ) (timestamp : ℕ)
    (min_amount max_amount : ℝ) (num_points : ℕ) : RunTrace ℝ :=
  calcTrace oracle timestamp 0 0 (sampleAmounts min_amount max_amount num_points)

theorem calcTrace_nil (oracle : ℤ → Option α) (ts : ℕ) (cum ws : α) :
    calcTrace oracle ts cum ws [] = ⟨[], [], [], []⟩ := rfl

theorem calcTrace_cons_some (oracle : ℤ → Option α) (ts : ℕ) (cum ws a : α)
    (rest : List α) (d : α) (h : oracle (pyInt a) = some d) :
    calcTrace oracle ts cum ws (a :: rest) =
      ⟨⟨ts, pyInt a, some d, some ((ws + (a - cum) * d) / (cum + (a - cum)))⟩ ::
          (calcTrace oracle ts (cum + (a - cum)) (ws + (a - cum) * d) rest).rows,
        pyInt a :: (calcTrace oracle ts (cum + (a - cum)) (ws + (a - cum) * d) rest).calls,
        (ws + (a - cum) * d, cum + (a - cum)) ::
          (calcTrace oracle ts (cum + (a - cum)) (ws + (a - cum) * d) rest).divs,
        (cum + (a - cum)) ::
          (calcTrace oracle ts (cum + (a - cum)) (ws + (a - cum) * d) rest).cums⟩ := by
  simp only [calcTrace, h]

theorem calcTrace_cons_none (oracle : ℤ → Option α) (ts : ℕ) (cum ws a : α)
    (rest : List α) (h : oracle (pyInt a) = none) :
    calcTrace oracle ts cum ws (a :: rest) =
      ⟨⟨ts, pyInt a, none, none⟩ ::
          (calcTrace oracle ts (cum + (a - cum)) ws rest).rows,
        pyInt a :: (calcTrace oracle ts (cum + (a - cum)) ws rest).calls,
        (calcTrace oracle ts (cum + (a - cum)) ws rest).divs,
        (cum + (a - cum)) :: (calcTrace oracle ts (cum + (a - cum)) ws rest).cums⟩ := by
  simp only [calcTrace, h]

theorem specWSumAux_zero (oracle : ℤ → Option α) (prev : α) (l : List α) :
    specWSumAux oracle prev l 0 =
      durContrib (oracle (pyInt (l.getD 0 0))) (l.getD 0 0 - prev) := by
  simp [specWSumAux]

theorem specWSumAux_cons (oracle : ℤ → Option α) (prev a : α) (rest : List α) (i : ℕ) :
    specWSumAux oracle prev (a :: rest) (i + 1) =
      durContrib (oracle (pyInt a)) (a - prev) + specWSumAux oracle a rest i := by
  unfold specWSumAux
  rw [Finset.sum_range_succ']
  rw [add_comm]
  congr 1
  · refine Finset.sum_congr rfl fun j _ => ?_
    cases j with
    | zero => simp
    | succ k => simp

omit [FloorRing α] in
theorem specCumulative_eq_getD (amounts : List α) (i : ℕ) :
    specCumulative amounts i = amounts.getD i 0 := by
  induction i with
  | zero => simp [specCumulative, specIncrement]
  | succ k ih =>
      rw [specCumulative, Finset.sum_range_succ]
      rw [show (∑ j ∈ Finset.range (k + 1), specIncrement amounts j) = specCumulative amounts k from rfl]
      rw [ih, specIncrement]
      simp

theorem calcTrace_rows_getD (oracle : ℤ → Option α) (ts : ℕ) :
    ∀ (amounts : List α) (cum ws : α) (i : ℕ), i < amounts.length →
      ((calcTrace oracle ts cum ws amounts).rows).getD i row0 =
        ⟨ts, pyInt (amounts.getD i 0), oracle (pyInt (amounts.getD i 0)),
          (oracle (pyInt (amounts.getD i 0))).map
            (fun _ => (ws + specWSumAux oracle cum amounts i) / amounts.getD i 0)⟩ := by
  intro amounts
  induction amounts with
  | nil => intro cum ws i hi; exact absurd hi (by simp)
  | cons a rest ih =>
      intro cum ws i hi
      have hcum : cum + (a - cum) = a := by ring
      cases h : oracle (pyInt a) with
      | none =>
          rw [calcTrace_cons_none oracle ts cum ws a rest h, hcum]
          cases i with
          | zero => simp [specWSumAux_zero, h]
          | succ k =>
              have hk : k < rest.length := by simpa using hi
              rw [List.getD_cons_succ, ih a ws k hk]
              simp [specWSumAux_cons, h, durContrib]
      | some d =>
          rw [calcTrace_cons_some oracle ts cum ws a rest d h, hcum]
          cases i with
          | zero => simp [specWSumAux_zero, h, durContrib]
          | succ k =>
              have hk : k < rest.length := by simpa using hi
              rw [List.getD_cons_succ, ih a (ws + (a - cum) * d) k hk]
              simp [specWSumAux_cons, h, durContrib, add_assoc]

theorem calcTrace_rows_length (oracle : ℤ → Option α) (ts : ℕ) :
    ∀ (amounts : List α) (cum ws : α),
      ((calcTrace oracle ts cum ws amounts).rows).length = amounts.length := by
  intro amounts
  induction amounts with
  | nil => intro cum ws; rfl
  | cons a rest ih =>
      intro cum ws
      cases h : oracle (pyInt a) with
      | none => rw [calcTrace_cons_none oracle ts cum ws a rest h]; simp [ih]
      | some d => rw [calcTrace_cons_some oracle ts cum ws a rest d h]; simp [ih]

theorem calcTrace_calls (oracle : ℤ → Option α) (ts : ℕ) :
    ∀ (amounts : List α) (cum ws : α),
      (calcTrace oracle ts cum ws amounts).calls = amounts.map pyInt := by
  intro amounts
  induction amounts with
  | nil => intro cum ws; rfl
  | cons a rest ih =>
      intro cum ws
      cases h : oracle (pyInt a) with
      | none => rw [calcTrace_cons_none oracle ts cum ws a rest h]; simp [ih]
      | some d => rw [calcTrace_cons_some oracle ts cum ws a rest d h]; simp [ih]

theorem calcTrace_cums_getD (oracle : ℤ → Option α) (ts : ℕ) :
    ∀ (amounts : List α) (cum ws : α) (i : ℕ), i < amounts.length →
      ((calcTrace oracle ts cum ws amounts).cums).getD i 0 = amounts.getD i 0 := by
  intro amounts
  induction amounts with
  | nil => intro cum ws i hi; exact absurd hi (by simp)
  | cons a rest ih =>
      intro cum ws i hi
      have hcum : cum + (a - cum) = a := by ring
      cases h : oracle (pyInt a) with
      | none =>
          rw [calcTrace_cons_none oracle ts cum ws a rest h, hcum]
          cases i with
          | zero => simp
          | succ k =>
              have hk : k < rest.length := by simpa using hi
              rw [List.getD_cons_succ, List.getD_cons_succ, ih a ws k hk]
      | some d =>
          rw [calcTrace_cons_some oracle ts cum ws a rest d h, hcum]
          cases i with
          | zero => simp
          | succ k =>
              have hk : k < rest.length := by simpa using hi
              rw [List.getD_cons_succ, List.getD_cons_succ, ih a (ws + (a - cum) * d) k hk]

theorem calcTrace_divs_mem (oracle : ℤ → Option α) (ts : ℕ) :
    ∀ (amounts : List α) (cum ws : α),
      ∀ p ∈ (calcTrace oracle ts cum ws amounts).divs, p.2 ∈ amounts := by
  intro amounts
  induction amounts with
  | nil => intro cum ws p hp; exact absurd hp (by simp [calcTrace_nil])
  | cons a rest ih =>
      intro cum ws p hp
      have hcum : cum + (a - cum) = a := by ring
      cases h : oracle (pyInt a) with
      | none =>
          rw [calcTrace_cons_none oracle ts cum ws a rest h] at hp
          exact List.mem_cons_of_mem a (ih a ws p (by rwa [hcum] at hp))
      | some d =>
          rw [calcTrace_cons_some oracle ts cum ws a rest d h, hcum] at hp
          rcases List.mem_cons.mp hp with h1 | h1
          · rw [h1]; exact List.mem_cons_self a rest
          · exact List.mem_cons_of_mem a (ih a (ws + (a - cum) * d) p h1)

theorem calcTrace_rows_mem_iff (oracle : ℤ → Option α) (ts : ℕ) :
    ∀ (amounts : List α) (cum ws : α),
      ∀ row ∈ (calcTrace oracle ts cum ws amounts).rows,
        (row.finalization_days = none ↔ row.weighted_duration = none) := by
  intro amounts
  induction amounts with
  | nil => intro cum ws row hrow; exact absurd hrow (by simp [calcTrace_nil])
  | cons a rest ih =>
      intro cum ws row hrow
      cases h : oracle (pyInt a) with
      | none =>
          rw [calcTrace_cons_none oracle ts cum ws a rest h] at hrow
          rcases List.mem_cons.mp hrow with h1 | h1
          · rw [h1]
          · exact ih (cum + (a - cum)) ws row h1
      | some d =>
          rw [calcTrace_cons_some oracle ts cum ws a rest d h] at hrow
          rcases List.mem_cons.mp hrow with h1 | h1
          · rw [h1]; simp
          · exact ih (cum + (a - cum)) (ws + (a - cum) * d) row h1

theorem sampleAmounts_length (mn mx : ℝ) (count : ℕ) :
    (sampleAmounts mn mx count).length = count := by
  rw [sampleAmounts, logspace10, List.length_map, List.length_range]

theorem sampleAmounts_getD (mn mx : ℝ) (count i : ℕ) (hi : i < count) :
    (sampleAmounts mn mx count).getD i 0
      = (10 : ℝ) ^ (Real.logb 10 mn
          + (i : ℝ) * ((Real.logb 10 mx - Real.logb 10 mn) / ((count - 1 : ℕ) : ℝ))) := by
  have hlen : i < (sampleAmounts mn mx count).length := by rwa [sampleAmounts_length]
  rw [List.getD_eq_getElem _ _ hlen]
  simp only [sampleAmounts, logspace10, List.getElem_map, List.getElem_range]

/-- C1: in the row sequence returned by the fold, the weighted_duration of
row `i` equals the sum over `j ≤ i` with a defined finalization_days of
`incremental_amount_j * finalization_days_j`, divided by
`cumulative_amount_i` (`incremental_amount_j = amount_j - amount_(j-1)`,
`amount_0`'s predecessor `0`); when `finalization_days_i` is absent,
`weighted_duration_i` is null, weighted_sum is not updated (the absent
observation contributes `0` to the spec sum), yet cumulative_amount still
advances by the full incremental amount, so it equals the spec-side
cumulative amount at every step. -/
theorem claim_C1 (oracle : ℤ → Option ℚ) (ts : ℕ) (amounts : List ℚ) (i : ℕ)
    (hi : i < amounts.length) :
    ((calculate_weighted_durations oracle ts amounts).getD i row0).weighted_duration
        = (oracle (pyInt (amounts.getD i 0))).map
            (fun _ => specWeightedSum oracle amounts i / specCumulative amounts i)
      ∧ ((calcTrace oracle ts 0 0 amounts).cums).getD i 0 = specCumulative amounts i := by
  constructor
  · rw [calculate_weighted_durations, calcTrace_rows_getD oracle ts amounts 0 0 i hi,
      specCumulative_eq_getD]
    simp [specWeightedSum]
  · rw [calcTrace_cums_getD oracle ts amounts 0 0 i hi, specCumulative_eq_getD]

/-- Witness for C1 at the spec's failure scenario: samples `[10, 100]`,
the oracle failing at `10` and returning `5` days at `100`, row `1`. -/
theorem claim_C1_witness :
    1 < [(10 : ℚ), 100].length
      ∧ (((calculate_weighted_durations
              (fun q => if q = 10 then none else some 5) 0 [(10 : ℚ), 100]).getD 1
            row0).weighted_duration
          = ((fun q => if q = 10 then none else some (5 : ℚ)) (pyInt ([(10 : ℚ), 100].getD 1 0))).map
              (fun _ => specWeightedSum (fun q => if q = 10 then none else some 5) [(10 : ℚ), 100] 1
                  / specCumulative [(10 : ℚ), 100] 1)
          ∧ (((calcTrace (fun q => if q = 10 then none else some 5) 0 0 0
                [(10 : ℚ), 100]).cums).getD 1 0
              = specCumulative [(10 : ℚ), 100] 1)) :=
  ⟨by decide,
   claim_C1 (fun q => if q = 10 then none else some 5) 0 [(10 : ℚ), 100] 1 (by decide)⟩

/-- C2 as stated is false: the fold stores `int(amount)` in each output
row (source line 81), so for the non-integer sample `21/2` the emitted
amount is `10`, not the input sample. -/
theorem claim_C2_counterexample :
    (((calculate_weighted_durations (fun _ => none) 0 [(21 / 2 : ℚ)]).getD 0 row0).amount : ℚ)
      ≠ [(21 / 2 : ℚ)].getD 0 0 := by
  norm_num [calculate_weighted_durations, calcTrace, pyInt]

/-- C2 (amended): the fold returns exactly one output row per input
sample, in input order, and the amount field of output row `i` equals the
input sample `i` truncated toward zero by Python's `int()`. -/
theorem claim_C2 (oracle : ℤ → Option ℚ) (ts : ℕ) (amounts : List ℚ) :
    (calculate_weighted_durations oracle ts amounts).length = amounts.length
      ∧ ∀ i, i < amounts.length →
          ((calculate_weighted_durations oracle ts amounts).getD i row0).amount
            = pyInt (amounts.getD i 0) := by
  refine ⟨calcTrace_rows_length oracle ts amounts 0 0, fun i hi => ?_⟩
  rw [calculate_weighted_durations, calcTrace_rows_getD oracle ts amounts 0 0 i hi]

/-- Witness for C2 (amended) at the single sample `21/2`. -/
theorem claim_C2_witness :
    0 < [(21 / 2 : ℚ)].length
      ∧ (calculate_weighted_durations (fun _ => none) 0 [(21 / 2 : ℚ)]).length
          = [(21 / 2 : ℚ)].length
      ∧ ((calculate_weighted_durations (fun _ => none) 0 [(21 / 2 : ℚ)]).getD 0 row0).amount
          = pyInt ([(21 / 2 : ℚ)].getD 0 0) :=
  ⟨by decide, (claim_C2 (fun _ => none) 0 [(21 / 2 : ℚ)]).1,
   (claim_C2 (fun _ => none) 0 [(21 / 2 : ℚ)]).2 0 (by decide)⟩

/-- C5: if every oracle query succeeds with the same constant duration `d`
and all samples are positive, the weighted_duration of every output row
equals `d`. -/
theorem claim_C5 (oracle : ℤ → Option ℚ) (ts : ℕ) (amounts : List ℚ) (d : ℚ)
    (hor : ∀ q, oracle q = some d) (hpos : ∀ a ∈ amounts, 0 < a)
    (i : ℕ) (hi : i < amounts.length) :
    ((calculate_weighted_durations oracle ts amounts).getD i row0).weighted_duration
      = some d := by
  rw [calculate_weighted_durations, calcTrace_rows_getD oracle ts amounts 0 0 i hi]
  have hmem : amounts.getD i 0 ∈ amounts := by
    rw [List.getD_eq_getElem amounts 0 hi]
    exact List.getElem_mem hi
  have hne : amounts.getD i 0 ≠ 0 := ne_of_gt (hpos _ hmem)
  have hsum : specWSumAux oracle 0 amounts i = amounts.getD i 0 * d := by
    have hcc : specWSumAux oracle 0 amounts i = specCumulative amounts i * d := by
      rw [specWSumAux, specCumulative, Finset.sum_mul]
      refine Finset.sum_congr rfl fun j _ => ?_
      rw [hor, durContrib, specIncrement]
    rw [hcc, specCumulative_eq_getD]
  simp only [hor, Option.map_some']
  rw [zero_add, hsum, mul_div_cancel_left₀ _ hne]

/-- Witness for C5: constant duration `3` on samples `[10, 100]`, row `1`. -/
theorem claim_C5_witness :
    (∀ q : ℤ, (fun _ => some (3 : ℚ)) q = some (3 : ℚ))
      ∧ (∀ a ∈ [(10 : ℚ), 100], 0 < a)
      ∧ ((calculate_weighted_durations (fun _ => some (3 : ℚ)) 0 [(10 : ℚ), 100]).getD 1
            row0).weighted_duration = some 3 :=
  ⟨fun _ => rfl, by decide,
   claim_C5 (fun _ => some 3) 0 [(10 : ℚ), 100] 3 (fun _ => rfl) (by decide) 1 (by decide)⟩

/-- C6: after processing sample `i` the accumulator's cumulative_amount
equals input sample `i` exactly; hence over non-decreasing samples the
cumulative_amount trace is non-decreasing, and strictly increasing
whenever successive samples differ. -/
theorem claim_C6 (oracle : ℤ → Option ℚ) (ts : ℕ) (amounts : List ℚ) (i : ℕ)
    (hi : i < amounts.length) :
    ((calcTrace oracle ts 0 0 amounts).cums).getD i 0 = amounts.getD i 0
      ∧ (∀ _ : i + 1 < amounts.length,
          amounts.getD i 0 ≤ amounts.getD (i + 1) 0 →
            ((calcTrace oracle ts 0 0 amounts).cums).getD i 0
              ≤ ((calcTrace oracle ts 0 0 amounts).cums).getD (i + 1) 0)
      ∧ (∀ _ : i + 1 < amounts.length,
          amounts.getD i 0 ≤ amounts.getD (i + 1) 0 →
          amounts.getD i 0 ≠ amounts.getD (i + 1) 0 →
            ((calcTrace oracle ts 0 0 amounts).cums).getD i 0
              < ((calcTrace oracle ts 0 0 amounts).cums).getD (i + 1) 0) := by
  refine ⟨calcTrace_cums_getD oracle ts amounts 0 0 i hi, fun hj hle => ?_, fun hj hle hne => ?_⟩
  · rw [calcTrace_cums_getD oracle ts amounts 0 0 i hi,
      calcTrace_cums_getD oracle ts amounts 0 0 (i + 1) hj]
    exact hle
  · rw [calcTrace_cums_getD oracle ts amounts 0 0 i hi,
      calcTrace_cums_getD oracle ts amounts 0 0 (i + 1) hj]
    exact lt_of_le_of_ne hle hne

/-- Witness for C6 on the samples `[1, 2]` at `i = 0`. -/
theorem claim_C6_witness :
    0 < [(1 : ℚ), 2].length
      ∧ (((calcTrace (fun _ => none) 0 0 0 [(1 : ℚ), 2]).cums).getD 0 0
            = [(1 : ℚ), 2].getD 0 0
          ∧ (∀ _ : 0 + 1 < [(1 : ℚ), 2].length,
              [(1 : ℚ), 2].getD 0 0 ≤ [(1 : ℚ), 2].getD (0 + 1) 0 →
                ((calcTrace (fun _ => none) 0 0 0 [(1 : ℚ), 2]).cums).getD 0 0
                  ≤ ((calcTrace (fun _ => none) 0 0 0 [(1 : ℚ), 2]).cums).getD (0 + 1) 0)
          ∧ (∀ _ : 0 + 1 < [(1 : ℚ), 2].length,
              [(1 : ℚ), 2].getD 0 0 ≤ [(1 : ℚ), 2].getD (0 + 1) 0 →
              [(1 : ℚ), 2].getD 0 0 ≠ [(1 : ℚ), 2].getD (0 + 1) 0 →
                ((calcTrace (fun _ => none) 0 0 0 [(1 : ℚ), 2]).cums).getD 0 0
                  < ((calcTrace (fun _ => none) 0 0 0 [(1 : ℚ), 2]).cums).getD (0 + 1) 0)) :=
  ⟨by decide, claim_C6 (fun _ => none) 0 [(1 : ℚ), 2] 0 (by decide)⟩

/-- C7: on the empty sample sequence the fold returns the empty row
sequence, and its event trace is empty, so in particular no oracle call is
made and no division is executed; as a total function it raises no error. -/
theorem claim_C7 (oracle : ℤ → Option ℚ) (ts : ℕ) :
    calcTrace oracle ts 0 0 ([] : List ℚ) = ⟨[], [], [], []⟩
      ∧ calculate_weighted_durations oracle ts ([] : List ℚ) = [] :=
  ⟨rfl, rfl⟩

/-- C8: over strictly positive samples, the denominator of every executed
division `weighted_sum / cumulative_amount` is one of the (positive)
sample amounts, so it is positive and in particular nonzero. -/
theorem claim_C8 (oracle : ℤ → Option ℚ) (ts : ℕ) (amounts : List ℚ)
    (hpos : ∀ a ∈ amounts, 0 < a) :
    ∀ p ∈ (calcTrace oracle ts 0 0 amounts).divs,
      p.2 ∈ amounts ∧ 0 < p.2 ∧ p.2 ≠ 0 :=
  fun p hp =>
    have hm : p.2 ∈ amounts := calcTrace_divs_mem oracle ts amounts 0 0 p hp
    ⟨hm, hpos _ hm, ne_of_gt (hpos _ hm)⟩

/-- Witness for C8: on samples `[1, 2]` with constant duration `1`, the
first executed division has denominator `1`. -/
theorem claim_C8_witness :
    (∀ a ∈ [(1 : ℚ), 2], 0 < a)
      ∧ (((1 : ℚ), (1 : ℚ)).2 ∈ [(1 : ℚ), 2]
          ∧ 0 < ((1 : ℚ), (1 : ℚ)).2 ∧ ((1 : ℚ), (1 : ℚ)).2 ≠ 0) := by
  have hdivs : (calcTrace (fun _ => some (1 : ℚ)) 0 0 0 [1, 2]).divs = [(1, 1), (2, 2)] := by
    norm_num [calcTrace, pyInt]
  refine ⟨by decide, claim_C8 (fun _ => some 1) 0 [(1 : ℚ), 2] (by decide)
    ((1 : ℚ), (1 : ℚ)) ?_⟩
  rw [hdivs]
  simp

/-- C9: in every emitted row, finalization_days is null if and only if
weighted_duration is null. -/
theorem claim_C9 (oracle : ℤ → Option ℚ) (ts : ℕ) (amounts : List ℚ) :
    ∀ row ∈ calculate_weighted_durations oracle ts amounts,
      (row.finalization_days = none ↔ row.weighted_duration = none) :=
  fun row hrow => calcTrace_rows_mem_iff oracle ts amounts 0 0 row hrow

/-- Witness for C9 at the row emitted for the failing sample `1`. -/
theorem claim_C9_witness :
    (⟨0, 1, none, none⟩ : Row ℚ).finalization_days = none
      ↔ (⟨0, 1, none, none⟩ : Row ℚ).weighted_duration = none :=
  claim_C9 (fun _ => none) 0 [(1 : ℚ)] ⟨0, 1, none, none⟩ (by decide)

/-- C10: when the HTTP request succeeds and the response parses but the
`finalizationIn` field is null or missing, `fetch_withdrawal_time` returns
`(no duration, no error)`: an absent observation need not come from a
network or parsing failure. -/
theorem claim_C10 (response_data : ApiResponse ℚ)
    (h : response_data.requestInfo.finalizationIn = none) :
    fetch_withdrawal_time (FetchOutcome.parsed response_data) = (none, none) := by
  simp [fetch_withdrawal_time, h]

/-- Witness for C10 at the concrete parsed body `{requestInfo: {}}`. -/
theorem claim_C10_witness :
    (ApiResponse.mk (RequestInfo.mk none) : ApiResponse ℚ).requestInfo.finalizationIn = none
      ∧ fetch_withdrawal_time
          (FetchOutcome.parsed (ApiResponse.mk (RequestInfo.mk none) : ApiResponse ℚ))
          = (none, none) :=
  ⟨rfl, claim_C10 (ApiResponse.mk (RequestInfo.mk none)) rfl⟩

/-- C3 as stated is false: `main` performs no range validation and the
repository defines no `InvalidRangeError`; at the configuration
`min_amount = 100`, `max_amount = 10`, `num_points = 2` (which has
`max_amount ≤ min_amount`, and `0 < max_amount`, `1 ≤ num_points`), the
run proceeds, two oracle calls are made, and two rows are returned — no
failure is surfaced before (or after) the oracle calls. -/
theorem claim_C3_counterexample :
    ((0 : ℝ) < 10 ∧ (10 : ℝ) ≤ 100 ∧ 1 ≤ 2)
      ∧ (mainTrace (fun _ => none) 0 100 10 2).calls.length = 2
      ∧ (mainTrace (fun _ => none) 0 100 10 2).rows.length = 2 := by
  refine ⟨⟨by norm_num, by norm_num, by norm_num⟩, ?_, ?_⟩
  · rw [mainTrace, calcTrace_calls]
    simp [sampleAmounts_length]
  · rw [mainTrace, calcTrace_rows_length, sampleAmounts_length]

/-- C3 (amended): the code has no `InvalidRangeError` and validates
nothing; for every configuration with `0 < max_amount ≤ min_amount` and
`count ≥ 1` the run proceeds normally, making exactly one oracle call per
sample and returning exactly `count` rows. -/
theorem claim_C3 (oracle : ℤ → Option ℝ) (ts : ℕ) (mn mx : ℝ) (count : ℕ)
    (_hmx : 0 < mx) (_hle : mx ≤ mn) (_hc : 1 ≤ count) :
    (mainTrace oracle ts mn mx count).calls.length = count
      ∧ (mainTrace oracle ts mn mx count).rows.length = count := by
  constructor
  · rw [mainTrace, calcTrace_calls]
    simp [sampleAmounts_length]
  · rw [mainTrace, calcTrace_rows_length, sampleAmounts_length]

/-- Witness for C3 (amended) at the configuration `(1000, 1, 3)`. -/
theorem claim_C3_witness :
    ((0 : ℝ) < 1 ∧ (1 : ℝ) ≤ 1000 ∧ 1 ≤ 3)
      ∧ (mainTrace (fun _ => some 1) 7 1000 1 3).calls.length = 3
      ∧ (mainTrace (fun _ => some 1) 7 1000 1 3).rows.length = 3 :=
  ⟨⟨by norm_num, by norm_num, by norm_num⟩,
   (claim_C3 (fun _ => some 1) 7 1000 1 3 (by norm_num) (by norm_num) (by norm_num)).1,
   (claim_C3 (fun _ => some 1) 7 1000 1 3 (by norm_num) (by norm_num) (by norm_num)).2⟩

/-- C4: for every valid configuration (`0 < min < max`, `count ≥ 1`) the
sampler has length `count` and its `i`-th value is
`10 ^ (log10 min + i * (log10 max - log10 min) / (count - 1))`; for
`count = 1` it is `[min]`; for `count ≥ 2` it is strictly increasing with
first element `min` and last element `max` (exactly, in the real-number
model of the floating-point computation). -/
theorem claim_C4 (mn mx : ℝ) (count : ℕ) (hmn : 0 < mn) (hlt : mn < mx)
    (hc : 1 ≤ count) :
    (sampleAmounts mn mx count).length = count
      ∧ (∀ i, i < count →
          (sampleAmounts mn mx count).getD i 0
            = (10 : ℝ) ^ (Real.logb 10 mn
                + (i : ℝ) * ((Real.logb 10 mx - Real.logb 10 mn) / ((count - 1 : ℕ) : ℝ))))
      ∧ (count = 1 → sampleAmounts mn mx count = [mn])
      ∧ (2 ≤ count →
          (∀ i j, i < j → j < count →
              (sampleAmounts mn mx count).getD i 0 < (sampleAmounts mn mx count).getD j 0)
            ∧ (sampleAmounts mn mx count).getD 0 0 = mn
            ∧ (sampleAmounts mn mx count).getD (count - 1) 0 = mx) := by
  have h10 : (1 : ℝ) < 10 := by norm_num
  have hb0 : (0 : ℝ) < 10 := by norm_num
  have hb1 : (10 : ℝ) ≠ 1 := by norm_num
  have hmx : 0 < mx := lt_trans hmn hlt
  have hlo : Real.logb 10 mn < Real.logb 10 mx := Real.logb_lt_logb h10 hmn hlt
  refine ⟨sampleAmounts_length mn mx count,
    fun i hi => sampleAmounts_getD mn mx count i hi, ?_, ?_⟩
  · intro h1
    subst h1
    have hone : sampleAmounts mn mx 1 = [(10 : ℝ) ^ Real.logb 10 mn] := by
      rw [sampleAmounts, logspace10]
      norm_num [List.range_succ]
    rw [hone, Real.rpow_logb hb0 hb1 hmn]
  · intro h2
    have hden : (0 : ℝ) < ((count - 1 : ℕ) : ℝ) := by
      have h1 : 0 < count - 1 := by omega
      exact_mod_cast h1
    have hstep : 0 < (Real.logb 10 mx - Real.logb 10 mn) / ((count - 1 : ℕ) : ℝ) :=
      div_pos (sub_pos.mpr hlo) hden
    refine ⟨fun i j hij hj => ?_, ?_, ?_⟩
    · rw [sampleAmounts_getD mn mx count i (lt_trans hij hj),
        sampleAmounts_getD mn mx count j hj,
        Real.rpow_lt_rpow_left_iff h10]
      exact add_lt_add_left
        (mul_lt_mul_of_pos_right (by exact_mod_cast hij) hstep) _
    · rw [sampleAmounts_getD mn mx count 0 (by omega)]
      norm_num
      exact Real.rpow_logb hb0 hb1 hmn
    · rw [sampleAmounts_getD mn mx count (count - 1) (by omega)]
      have hne1 : ((count - 1 : ℕ) : ℝ) ≠ 0 := ne_of_gt hden
      have hexp : Real.logb 10 mn
          + ((count - 1 : ℕ) : ℝ)
            * ((Real.logb 10 mx - Real.logb 10 mn) / ((count - 1 : ℕ) : ℝ))
          = Real.logb 10 mx := by
        rw [mul_comm, div_mul_cancel₀ _ hne1]
        ring
      rw [hexp, Real.rpow_logb hb0 hb1 hmx]

/-- Witness for C4 at the configuration `(10, 1000, 3)`. -/
theorem claim_C4_witness :
    ((0 : ℝ) < 10 ∧ (10 : ℝ) < 1000 ∧ 1 ≤ 3)
      ∧ ((sampleAmounts 10 1000 3).length = 3
          ∧ (∀ i, i < 3 →
              (sampleAmounts 10 1000 3).getD i 0
                = (10 : ℝ) ^ (Real.logb 10 10
                    + (i : ℝ) * ((Real.logb 10 1000 - Real.logb 10 10) / ((3 - 1 : ℕ) : ℝ))))
          ∧ ((3 : ℕ) = 1 → sampleAmounts 10 1000 3 = [10])
          ∧ (2 ≤ 3 →
              (∀ i j, i < j → j < 3 →
                  (sampleAmounts 10 1000 3).getD i 0 < (sampleAmounts 10 1000 3).getD j 0)
                ∧ (sampleAmounts 10 1000 3).getD 0 0 = 10
                ∧ (sampleAmounts 10 1000 3).getD (3 - 1) 0 = 1000)) :=
  ⟨⟨by norm_num, by norm_num, by norm_num⟩,
   claim_C4 10 1000 3 (by norm_num) (by norm_num) (by norm_num)⟩

end Lido
